import Mathlib

/-!
Shallow embedding of the Filmlog application (src/app.py): the roll CRUD
handlers, the settings/feature-flag table, the search route, the backup
entry dispatch and the label-sheet generator, together with theorems
settling the frozen claims about them.
-/

namespace Filmlog

/-! ### String helpers modelling the Python primitives used by app.py -/

/-- `listStarts pat s` is true when `pat` occurs at the start of `s`
(models Python `str.startswith`). -/
def listStarts : List Char → List Char → Bool
  | [], _ => true
  | _ :: _, [] => false
  | a :: as, b :: bs => a == b && listStarts as bs

/-- `listHas pat s` is true when `pat` occurs as a contiguous run inside `s`
(models Python `in` on strings). -/
def listHas (pat : List Char) : List Char → Bool
  | [] => listStarts pat []
  | b :: bs => listStarts pat (b :: bs) || listHas pat bs

def pyStartsWith (s pat : String) : Bool := listStarts pat.data s.data

def pyContains (s pat : String) : Bool := listHas pat.data s.data

def lowerChars (cs : List Char) : List Char := cs.map Char.toLower

/-- Value of a run of decimal digits (most significant first). -/
def digitsVal (cs : List Char) : Nat := cs.foldl (fun a c => a * 10 + (c.toNat - 48)) 0

def allDigits (cs : List Char) : Bool := cs.all Char.isDigit

/-- Models Python `str.isdigit` for ASCII strings. -/
def pyIsdigit (s : String) : Bool := !s.data.isEmpty && allDigits s.data

def trimChars (cs : List Char) : List Char :=
  ((cs.dropWhile Char.isWhitespace).reverse.dropWhile Char.isWhitespace).reverse

def parseNatDigits (cs : List Char) : Option Nat :=
  if !cs.isEmpty && allDigits cs then some (digitsVal cs) else none

/-- Models Python `int(s)` on a string: surrounding whitespace is stripped, an
optional sign is allowed, and the rest must be a non-empty digit run;
`none` models the `ValueError` raise. -/
def pyInt (s : String) : Option Int :=
  match trimChars s.data with
  | '+' :: rest => (parseNatDigits rest).map Int.ofNat
  | '-' :: rest => (parseNatDigits rest).map (fun n => -(Int.ofNat n))
  | cs => (parseNatDigits cs).map Int.ofNat

/-- Characters after the last slash (models posix `os.path.basename`). -/
def afterLastSlash (cs : List Char) : List Char :=
  cs.foldl (fun acc c => if c == '/' then [] else acc ++ [c]) []

def pyBasename (s : String) : String := ⟨afterLastSlash s.data⟩

/-- Characters after the last dot (models `filename.rsplit('.', 1)[1]`,
meaningful only when the string does contain a dot). -/
def afterLastDot (cs : List Char) : List Char :=
  cs.foldl (fun acc c => if c == '.' then [] else acc ++ [c]) []

/-- app.py line 51: `app.config['ALLOWED_EXTENSIONS'] = {'jpg', 'jpeg', 'png'}`. -/
def ALLOWED_EXTENSIONS : List String := ["jpg", "jpeg", "png"]

/-- app.py lines 91-92: `'.' in filename and filename.rsplit('.', 1)[1].lower()
in app.config['ALLOWED_EXTENSIONS']`. -/
def allowed_file (filename : String) : Bool :=
  filename.data.contains '.' &&
    ALLOWED_EXTENSIONS.contains ⟨lowerChars (afterLastDot filename.data)⟩

/-! ### Date parsing, modelling `datetime.strptime(date_str, "%Y-%m-%d").date()` -/

structure PyDate where
  year : Nat
  month : Nat
  day : Nat
deriving DecidableEq

def isLeap (y : Nat) : Bool := y % 4 == 0 && (y % 100 != 0 || y % 400 == 0)

def daysInMonth (y m : Nat) : Nat :=
  if m == 2 then (if isLeap y then 29 else 28)
  else if m == 4 || m == 6 || m == 9 || m == 11 then 30
  else 31

def splitOnDash : List Char → List (List Char)
  | [] => [[]]
  | c :: cs =>
    match splitOnDash cs with
    | [] => [[]]
    | g :: gs => if c == '-' then [] :: g :: gs else (c :: g) :: gs

/-- Models CPython `datetime.strptime(s, "%Y-%m-%d")`: exactly three dash-joined
digit groups, the year of exactly four digits, month and day of one or two
digits, with range checks matching `datetime.date`; `none` models the
`ValueError` raise. -/
def strptimeYmd (s : String) : Option PyDate :=
  match splitOnDash s.data with
  | [ys, ms, ds] =>
    if ys.length == 4 && allDigits ys
        && (ms.length == 1 || ms.length == 2) && allDigits ms
        && (ds.length == 1 || ds.length == 2) && allDigits ds then
      let y := digitsVal ys
      let m := digitsVal ms
      let d := digitsVal ds
      if 1 ≤ y ∧ 1 ≤ m ∧ m ≤ 12 ∧ 1 ≤ d ∧ d ≤ daysInMonth y m then some ⟨y, m, d⟩
      else none
    else none
  | _ => none

/-- Models the local `parse_date` of `add_roll` (app.py lines 292-298): empty or
absent input gives `None`, and a `ValueError` from strptime is caught and also
gives `None`. -/
def parse_date (ds : Option String) : Option PyDate :=
  match ds with
  | none => none
  | some s => if s == "" then none else strptimeYmd s

/-- Models the local `parse_date` of `edit_roll` (app.py lines 354-357): empty or
absent input gives `None`, but a strptime failure propagates as an uncaught
exception, modelled as `Except.error`. -/
def parse_date_edit (ds : Option String) : Except Unit (Option PyDate) :=
  match ds with
  | none => Except.ok none
  | some s =>
    if s == "" then Except.ok none
    else match strptimeYmd s with
      | some d => Except.ok (some d)
      | none => Except.error ()

/-- Models `int(iso_input) if iso_input else None` (app.py lines 288-289 and
351-352): absent or empty gives `None`, a non-integer non-empty string raises. -/
def pyOptInt (os : Option String) : Except Unit (Option Int) :=
  match os with
  | none => Except.ok none
  | some s =>
    if s == "" then Except.ok none
    else match pyInt s with
      | some n => Except.ok (some n)
      | none => Except.error ()

/-! ### Data model -/

/-- The `Roll` model of app.py lines 59-69 (the `date_added` timestamp column is
not tracked: no claim mentions it). -/
structure Roll where
  id : Int
  film_type : String
  iso : Option Int
  camera : String
  lens : Option String
  date_started : Option PyDate
  date_finished : Option PyDate
  contact_sheet : Option String
  notes : String
deriving DecidableEq

/-- The persistent state a roll request can touch: the Roll table and the set of
files in the image upload directory. -/
structure FilmState where
  rolls : List Roll
  images : List String
deriving DecidableEq

def emptyState : FilmState := { rolls := [], images := [] }

/-- The POST form of the `/add` route. `contact_sheet` holds the uploaded file's
client filename (`none` models no file or an empty filename, which is falsy for
a Werkzeug `FileStorage`). -/
structure AddForm where
  roll_id : Option String
  film_type : String
  camera : String
  lens : Option String
  notes : String
  iso : Option String
  date_started : Option String
  date_finished : Option String
  contact_sheet : Option String
deriving DecidableEq

/-- The POST form of the `/edit/{id}` route. -/
structure EditForm where
  film_type : String
  camera : String
  lens : Option String
  notes : String
  iso : Option String
  date_started : Option String
  date_finished : Option String
  contact_sheet : Option String
deriving DecidableEq

/-- Outcome of a request: a redirect, a re-rendered form with an error message,
a 404, or an unhandled exception. -/
inductive ReqResult
  | redirect
  | errorPage
  | notFound
  | raised
deriving DecidableEq

/-- `db.session.query(func.max(Roll.id)).scalar() or 0` (app.py line 261):
the maximum id in the table, or 0 when the table is empty. -/
def maxRollId (rolls : List Roll) : Int :=
  match rolls.map (fun r => r.id) with
  | [] => 0
  | x :: xs => xs.foldl max x

/-- app.py lines 270-274: the id used for a new roll. A supplied string that
parses as an integer is used as-is; an absent or unparsable `roll_id` field
falls back to `next_id = max + 1` (the `except (ValueError, TypeError)` arm). -/
def customIdOf (st : FilmState) (f : AddForm) : Int :=
  match f.roll_id with
  | none => maxRollId st.rolls + 1
  | some s =>
    match pyInt s with
    | none => maxRollId st.rolls + 1
    | some n => n

/-- `file and allowed_file(file.filename)` (app.py lines 306 and 364). -/
def validUpload (upload : Option String) : Bool :=
  match upload with
  | none => false
  | some fn => !(fn == "") && allowed_file fn

/-- The POST branch of `add_roll` (app.py lines 269-330): duplicate-id check,
iso parse (raising on bad input), lenient date parses, optional image save
under a generated filename, then insert. -/
def add_roll (st : FilmState) (f : AddForm) (genName : String) : ReqResult × FilmState :=
  let custom_id := customIdOf st f
  if st.rolls.any (fun r => r.id == custom_id) then (ReqResult.errorPage, st)
  else
    match pyOptInt f.iso with
    | Except.error _ => (ReqResult.raised, st)
    | Except.ok iso =>
      let ds := parse_date f.date_started
      let df := parse_date f.date_finished
      let filename : Option String := if validUpload f.contact_sheet then some genName else none
      let newImages := if validUpload f.contact_sheet then st.images ++ [genName] else st.images
      let newRoll : Roll :=
        { id := custom_id, film_type := f.film_type, iso := iso, camera := f.camera,
          lens := f.lens, date_started := ds, date_finished := df,
          contact_sheet := filename, notes := f.notes }
      (ReqResult.redirect, { rolls := st.rolls ++ [newRoll], images := newImages })

/-- `Roll.query.get(rid)` / `Roll.query.get_or_404(rid)`: primary-key lookup,
returning the first row with the given id. -/
def findRoll : List Roll → Int → Option Roll
  | [], _ => none
  | r :: rs, rid => if r.id == rid then some r else findRoll rs rid

/-- The POST branch of `edit_roll` (app.py lines 342-372): look up the roll
(404 when absent), overwrite the text fields, parse iso and the two dates
strictly (each may raise), replace the contact sheet only when a new valid
upload is present (the old image file is never removed), then commit. -/
def edit_roll (st : FilmState) (rid : Int) (f : EditForm) (genName : String) :
    ReqResult × FilmState :=
  match findRoll st.rolls rid with
  | none => (ReqResult.notFound, st)
  | some roll =>
    match pyOptInt f.iso with
    | Except.error _ => (ReqResult.raised, st)
    | Except.ok iso =>
      match parse_date_edit f.date_started with
      | Except.error _ => (ReqResult.raised, st)
      | Except.ok ds =>
        match parse_date_edit f.date_finished with
        | Except.error _ => (ReqResult.raised, st)
        | Except.ok df =>
          let cs := if validUpload f.contact_sheet then some genName else roll.contact_sheet
          let newImages :=
            if validUpload f.contact_sheet then st.images ++ [genName] else st.images
          let newRoll : Roll :=
            { id := roll.id, film_type := f.film_type, iso := iso, camera := f.camera,
              lens := f.lens, date_started := ds, date_finished := df,
              contact_sheet := cs, notes := f.notes }
          (ReqResult.redirect,
            { rolls := st.rolls.map (fun r => if r.id == rid then newRoll else r),
              images := newImages })

/-- `delete_roll` (app.py lines 384-397): look up the roll (404 when absent),
best-effort remove its image file (a missing file is ignored), delete the row. -/
def delete_roll (st : FilmState) (rid : Int) : ReqResult × FilmState :=
  match findRoll st.rolls rid with
  | none => (ReqResult.notFound, st)
  | some roll =>
    let st1 :=
      match roll.contact_sheet with
      | some fn => { st with images := st.images.erase fn }
      | none => st
    (ReqResult.redirect, { st1 with rolls := st1.rolls.filter (fun r => !(r.id == rid)) })

/-- A create or delete request, for reasoning about request sequences. -/
inductive Op
  | addR (f : AddForm) (genName : String)
  | delR (rid : Int)

def runOp (st : FilmState) : Op → FilmState
  | Op.addR f g => (add_roll st f g).2
  | Op.delR rid => (delete_roll st rid).2

def runOps (st : FilmState) (ops : List Op) : FilmState := ops.foldl runOp st

def hasRollId (st : FilmState) (i : Int) : Bool := st.rolls.any (fun r => r.id == i)

/-! ### The search route -/

def sortByIdDescInsert (r : Roll) : List Roll → List Roll
  | [] => [r]
  | x :: xs => if x.id ≤ r.id then r :: x :: xs else x :: sortByIdDescInsert r xs

def sortByIdDesc : List Roll → List Roll
  | [] => []
  | x :: xs => sortByIdDescInsert x (sortByIdDesc xs)

/-- SQLite `LIKE` compares characters after folding ASCII letters only
(`Char.toLower` lowercases exactly the ASCII range, matching SQLite's
`patternCompare` fold). -/
def likeCharEq (a b : Char) : Bool := a.toLower == b.toLower

/-- All suffixes of a list, longest first. -/
def listTails : List Char → List (List Char)
  | [] => [[]]
  | c :: cs => (c :: cs) :: listTails cs

/-- SQLite `LIKE` pattern matching with no ESCAPE clause: `%` matches any run
of zero or more characters, `_` matches exactly one character, and ordinary
characters compare ASCII case-insensitively. -/
def likeMatch : List Char → List Char → Bool
  | [], s => s.isEmpty
  | p :: ps, s =>
    if p == '%' then (listTails s).any (fun t => likeMatch ps t)
    else
      match s with
      | [] => false
      | c :: s2 => (p == '_' || likeCharEq p c) && likeMatch ps s2

/-- `column.contains(q)` as SQLAlchemy compiles it for the two name columns:
`column LIKE '%' || q || '%'`, evaluated by SQLite. -/
def sqlContains (field q : String) : Bool :=
  likeMatch ('%' :: (q.data ++ ['%'])) field.data

/-- The `index` route (app.py lines 237-256): an empty query lists the five
most recent rolls by descending id; an all-digit query is an exact id lookup;
any other query matches rolls whose film type or camera satisfies the
SQL `LIKE` containment test. -/
def index (rolls : List Roll) (q : String) : List Roll :=
  if q == "" then (sortByIdDesc rolls).take 5
  else if pyIsdigit q then rolls.filter (fun r => r.id == Int.ofNat (digitsVal q.data))
  else rolls.filter (fun r => sqlContains r.film_type q || sqlContains r.camera q)

/-! ### The label generator -/

/-- app.py lines 519-520: `COLUMNS = 5`, `ROWS = 13`. -/
def COLUMNS : Nat := 5

def ROWS : Nat := 13

/-- Grid placement of one label: zero-based page, column and row. -/
structure LabelCell where
  page : Nat
  col : Nat
  row : Nat
deriving DecidableEq

structure LabelDoc where
  page : Nat
  cells : List LabelCell
deriving DecidableEq

/-- One iteration of the loop in `generate_labels` (app.py lines 531-543):
`col = i % COLUMNS`, `row = (i // COLUMNS) % ROWS`, with `c.showPage()` first
when `i > 0 and i % (COLUMNS * ROWS) == 0`. -/
def drawLabelStep (doc : LabelDoc) (i : Nat) : LabelDoc :=
  let doc := if 0 < i ∧ i % (COLUMNS * ROWS) = 0 then { doc with page := doc.page + 1 } else doc
  { doc with cells := doc.cells ++ [⟨doc.page, i % COLUMNS, (i / COLUMNS) % ROWS⟩] }

/-- The geometry of `generate_labels` (app.py lines 529-565): labels for
`i in range(count)`, laid out on the 5-column by 13-row grid. -/
def generate_labels (count : Nat) : LabelDoc :=
  (List.range count).foldl drawLabelStep ⟨0, []⟩

def numPages (count : Nat) : Nat := (generate_labels count).page + 1

def nthCell : List LabelCell → Nat → LabelCell
  | [], _ => ⟨0, 0, 0⟩
  | c :: _, 0 => c
  | _ :: cs, n + 1 => nthCell cs n

def cellAt (count i : Nat) : LabelCell := nthCell (generate_labels count).cells i

/-- app.py lines 506-511: `start_num` and `label_count` are parsed with one
shared `try`; a missing field defaults before parsing (`form.get('start_num', 1)`),
and any `ValueError` resets both to `(1, 65)`. -/
def parseLabelParams (start_num label_count : Option String) : Int × Int :=
  match start_num with
  | none =>
    match label_count with
    | none => (1, 65)
    | some c =>
      match pyInt c with
      | none => (1, 65)
      | some cv => (1, cv)
  | some s =>
    match pyInt s with
    | none => (1, 65)
    | some sv =>
      match label_count with
      | none => (sv, 65)
      | some c =>
        match pyInt c with
        | none => (1, 65)
        | some cv => (sv, cv)

/-! ### The settings table and feature toggles -/

/-- `AppSetting.query.filter_by(key=k).first()`, projected to the value column:
the settings table as an association list from key to value, read by first
match. -/
def settingLookup : List (String × String) → String → Option String
  | [], _ => none
  | (k₁, v₁) :: tl, k => if k₁ == k then some v₁ else settingLookup tl k

/-- `toggle_feature` (app.py lines 219-235): when the key is absent a new row
with value `"true"` is inserted; otherwise the row the query found (the first
match) has its value flipped between `"true"` and anything else. -/
def toggle_feature : List (String × String) → String → List (String × String)
  | [], k => [(k, "true")]
  | (k₁, v₁) :: tl, k =>
    if k₁ == k then (k₁, if v₁ == "true" then "false" else "true") :: tl
    else (k₁, v₁) :: toggle_feature tl k

/-- The boolean read of a flag (app.py line 159):
`setting.value == 'true' if setting else False`. -/
def readFlag (st : List (String × String)) (k : String) : Bool :=
  match settingLookup st k with
  | some v => v == "true"
  | none => false

/-! ### Backup import dispatch -/

/-- A destination the import routine can write to: a name in the data
directory or a name in the image directory. -/
inductive ImportDest
  | dataDir (name : String)
  | imagesDir (name : String)
deriving DecidableEq

/-- app.py line 467: `'..' in member or member.startswith('/') or
member.startswith('\\')`. -/
def isTraversal (member : String) : Bool :=
  pyContains member ".." || pyStartsWith member "/" || pyStartsWith member "\\"

/-- The per-entry dispatch of `import_backup` (app.py lines 465-482): traversal
patterns are skipped, the two database filenames go to the data directory,
`Images/` entries are flattened to their basename in the image directory when
the basename is non-empty, and everything else is ignored. -/
def importTarget (member : String) : Option ImportDest :=
  if isTraversal member then none
  else if member == "filmlog.db" || member == "gearlog.db" then
    some (ImportDest.dataDir member)
  else if pyStartsWith member "Images/" then
    if pyBasename member == "" then none else some (ImportDest.imagesDir (pyBasename member))
  else none

def lookupDest : List (ImportDest × String) → ImportDest → Option String
  | [], _ => none
  | (d₁, c₁) :: tl, dest => if d₁ == dest then some c₁ else lookupDest tl dest

/-- Writing one archive entry (app.py lines 485-490): `open(target_path, "wb")`
replaces any existing file at the destination. -/
def extract_entry (fs : List (ImportDest × String)) (member content : String) :
    List (ImportDest × String) :=
  match importTarget member with
  | some dest => fs.filter (fun p => !(p.1 == dest)) ++ [(dest, content)]
  | none => fs

/-! ### Concrete fixtures used by witnesses and counterexamples -/

def baseForm : AddForm :=
  { roll_id := none, film_type := "Portra 400", camera := "AE-1", lens := none,
    notes := "", iso := none, date_started := none, date_finished := none,
    contact_sheet := none }

def rollW7 : Roll :=
  { id := 7, film_type := "HP5", iso := none, camera := "OM-1", lens := none,
    date_started := none, date_finished := none, contact_sheet := none, notes := "" }

def stateW7 : FilmState := { rolls := [rollW7], images := [] }

def formW7 : AddForm := { baseForm with roll_id := some "7" }

def badDateAddForm : AddForm := { baseForm with date_started := some "15/01/2023" }

def badDateEditForm : EditForm :=
  { film_type := "X", camera := "C", lens := none, notes := "", iso := none,
    date_started := some "15/01/2023", date_finished := none, contact_sheet := none }

def editFormW : EditForm :=
  { film_type := "Tri-X", camera := "F3", lens := some "50mm", notes := "n",
    iso := some "400", date_started := some "2024-01-02", date_finished := none,
    contact_sheet := none }

def badExtForm : AddForm := { baseForm with contact_sheet := some "cs.gif" }

/-! ### Claim theorems -/

/-- Claim C1: a create-roll request whose supplied id is already present in the
Roll table leaves the whole state unchanged and re-renders the add form with an
error instead of redirecting. -/
theorem add_roll_duplicate_id_rejected (st : FilmState) (f : AddForm) (g s : String)
    (n : Int) (hs : f.roll_id = some s) (hn : pyInt s = some n)
    (hpresent : st.rolls.any (fun r => r.id == n) = true) :
    add_roll st f g = (ReqResult.errorPage, st) := by
  have hid : customIdOf st f = n := by simp [customIdOf, hs, hn]
  simp [add_roll, hid, hpresent]

theorem add_roll_duplicate_id_rejected_witness :
    add_roll stateW7 formW7 "g" = (ReqResult.errorPage, stateW7) :=
  add_roll_duplicate_id_rejected stateW7 formW7 "g" "7" 7 rfl (by decide) (by decide)

/-- Claim C9: when the `start_num` or the `label_count` field is present but
does not parse as an integer, the label generator falls back to the fixed
defaults start=1 and count=65. -/
theorem label_params_fallback (sOpt cOpt : Option String)
    (h : (∃ s, sOpt = some s ∧ pyInt s = none) ∨ (∃ c, cOpt = some c ∧ pyInt c = none)) :
    parseLabelParams sOpt cOpt = (1, 65) := by
  rcases h with ⟨s, hs, hparse⟩ | ⟨c, hc, hparse⟩
  · subst hs
    simp [parseLabelParams, hparse]
  · subst hc
    cases sOpt with
    | none => simp [parseLabelParams, hparse]
    | some s =>
      cases hps : pyInt s with
      | none => simp [parseLabelParams, hps]
      | some sv => simp [parseLabelParams, hps, hparse]

theorem label_params_fallback_witness :
    parseLabelParams (some "abc") (some "10") = (1, 65) :=
  label_params_fallback (some "abc") (some "10") (Or.inl ⟨"abc", rfl, by decide⟩)

/-- The value stored for a key after one toggle, as a function of the value
stored before it. -/
def flipVal (v : Option String) : String :=
  match v with
  | none => "true"
  | some v => if v == "true" then "false" else "true"

theorem settingLookup_toggle (st : List (String × String)) (k : String) :
    settingLookup (toggle_feature st k) k = some (flipVal (settingLookup st k)) := by
  induction st with
  | nil => simp [toggle_feature, settingLookup, flipVal]
  | cons hd tl ih =>
    obtain ⟨k₁, v₁⟩ := hd
    by_cases hk : k₁ = k
    · subst hk
      simp [toggle_feature, settingLookup, flipVal]
    · simp [toggle_feature, settingLookup, hk, ih]

/-- Claim C6: toggling a feature key twice restores its boolean read value
(value string `"true"`; an absent key reads as false), and a single toggle on
an absent key creates it with value `"true"`. -/
theorem toggle_feature_involutive_read (st : List (String × String)) (k : String) :
    readFlag (toggle_feature (toggle_feature st k) k) k = readFlag st k ∧
    (settingLookup st k = none → settingLookup (toggle_feature st k) k = some "true") := by
  constructor
  · rw [readFlag, settingLookup_toggle, settingLookup_toggle]
    cases hv : settingLookup st k with
    | none => simp [flipVal, readFlag, hv]
    | some v =>
      by_cases htrue : (v == "true") = true
      · simp [flipVal, readFlag, hv, htrue]
      · have htrue' : (v == "true") = false := by simpa using htrue
        simp [flipVal, readFlag, hv, htrue']
  · intro h
    rw [settingLookup_toggle, h]
    rfl

theorem toggle_feature_involutive_read_witness :
    readFlag (toggle_feature (toggle_feature ([] : List (String × String)) "enable_gearlog")
        "enable_gearlog") "enable_gearlog"
      = readFlag ([] : List (String × String)) "enable_gearlog" ∧
    settingLookup (toggle_feature ([] : List (String × String)) "enable_gearlog")
        "enable_gearlog" = some "true" :=
  ⟨(toggle_feature_involutive_read [] "enable_gearlog").1,
   (toggle_feature_involutive_read [] "enable_gearlog").2 rfl⟩

theorem lookupDest_overwrite (fs : List (ImportDest × String)) (dest : ImportDest)
    (content : String) :
    lookupDest (fs.filter (fun p => !(p.1 == dest)) ++ [(dest, content)]) dest
      = some content := by
  induction fs with
  | nil => simp [lookupDest]
  | cons hd tl ih =>
    obtain ⟨d₁, c₁⟩ := hd
    by_cases hd' : (d₁ == dest) = true
    · have hfc : ((d₁, c₁) :: tl).filter (fun p => !(p.1 == dest))
          = tl.filter (fun p => !(p.1 == dest)) := by
        simp [List.filter_cons, hd']
      rw [hfc]
      exact ih
    · have hb : (d₁ == dest) = false := by simpa using hd'
      have hfc : ((d₁, c₁) :: tl).filter (fun p => !(p.1 == dest))
          = (d₁, c₁) :: tl.filter (fun p => !(p.1 == dest)) := by
        simp [List.filter_cons, hb]
      rw [hfc]
      simp [lookupDest, hb, ih]

/-- Claim C5: the per-entry dispatch of `import_backup`. Entries containing
`..` or starting with a path separator are skipped; the two database filenames
are written to the data directory; `Images/` entries with a non-empty basename
are written under only their basename in the image directory; every other
entry is ignored; and a write replaces any existing content at its
destination. -/
theorem import_entry_dispatch (member : String) :
    (isTraversal member = true → importTarget member = none) ∧
    (isTraversal member = false → (member = "filmlog.db" ∨ member = "gearlog.db") →
      importTarget member = some (ImportDest.dataDir member)) ∧
    (isTraversal member = false → member ≠ "filmlog.db" → member ≠ "gearlog.db" →
      pyStartsWith member "Images/" = true → pyBasename member ≠ "" →
      importTarget member = some (ImportDest.imagesDir (pyBasename member))) ∧
    (isTraversal member = false → member ≠ "filmlog.db" → member ≠ "gearlog.db" →
      pyStartsWith member "Images/" = true → pyBasename member = "" →
      importTarget member = none) ∧
    (isTraversal member = false → member ≠ "filmlog.db" → member ≠ "gearlog.db" →
      pyStartsWith member "Images/" = false → importTarget member = none) ∧
    (∀ fs content dest, importTarget member = some dest →
      lookupDest (extract_entry fs member content) dest = some content) := by
  refine ⟨fun ht => ?_, fun ht hdb => ?_, fun ht h1 h2 hpre hbn => ?_,
    fun ht h1 h2 hpre hbn => ?_, fun ht h1 h2 hpre => ?_, fun fs content dest htgt => ?_⟩
  · simp [importTarget, ht]
  · rcases hdb with h | h <;> subst h <;> simp [importTarget, ht]
  · simp [importTarget, ht, h1, h2, hpre, hbn]
  · simp [importTarget, ht, h1, h2, hpre, hbn]
  · simp [importTarget, ht, h1, h2, hpre]
  · rw [extract_entry, htgt]
    exact lookupDest_overwrite fs dest content

theorem import_entry_dispatch_witness :
    importTarget "Images/sub/pic.jpg"
        = some (ImportDest.imagesDir (pyBasename "Images/sub/pic.jpg")) :=
  (import_entry_dispatch "Images/sub/pic.jpg").2.2.1 (by decide) (by decide) (by decide)
    (by decide) (by decide)

theorem drawLabelStep_eq (doc : LabelDoc) (i : Nat) :
    drawLabelStep doc i =
      ⟨if 0 < i ∧ i % 65 = 0 then doc.page + 1 else doc.page,
       doc.cells ++ [⟨if 0 < i ∧ i % 65 = 0 then doc.page + 1 else doc.page,
          i % 5, (i / 5) % 13⟩]⟩ := by
  by_cases hc : 0 < i ∧ i % 65 = 0
  · simp [drawLabelStep, COLUMNS, ROWS, hc]
  · simp [drawLabelStep, COLUMNS, ROWS, hc]

theorem generate_labels_succ (n : Nat) :
    generate_labels (n + 1) = drawLabelStep (generate_labels n) n := by
  unfold generate_labels
  rw [List.range_succ, List.foldl_append]
  rfl

theorem generate_labels_spec (n : Nat) :
    (generate_labels n).page = (n - 1) / 65 ∧
    (generate_labels n).cells
      = (List.range n).map (fun i => (⟨i / 65, i % 5, (i / 5) % 13⟩ : LabelCell)) := by
  induction n with
  | zero => exact ⟨rfl, rfl⟩
  | succ m ih =>
    obtain ⟨ihp, ihc⟩ := ih
    have hpage : (if 0 < m ∧ m % 65 = 0 then (generate_labels m).page + 1
        else (generate_labels m).page) = m / 65 := by
      by_cases hc : 0 < m ∧ m % 65 = 0
      · rw [if_pos hc, ihp]
        omega
      · rw [if_neg hc, ihp]
        rcases Nat.eq_zero_or_pos m with h0 | h0
        · subst h0; rfl
        · have hmod : m % 65 ≠ 0 := fun hmm => hc ⟨h0, hmm⟩
          omega
    rw [generate_labels_succ, drawLabelStep_eq]
    refine ⟨?_, ?_⟩
    · show (if 0 < m ∧ m % 65 = 0 then (generate_labels m).page + 1
        else (generate_labels m).page) = (m + 1 - 1) / 65
      rw [hpage]
      omega
    · show (generate_labels m).cells ++
          [⟨if 0 < m ∧ m % 65 = 0 then (generate_labels m).page + 1
              else (generate_labels m).page, m % 5, (m / 5) % 13⟩]
        = (List.range (m + 1)).map (fun i => (⟨i / 65, i % 5, (i / 5) % 13⟩ : LabelCell))
      rw [ihc, hpage, List.range_succ, List.map_append]
      rfl

theorem nthCell_map_range : ∀ (n : Nat) (f : Nat → LabelCell) (i : Nat), i < n →
    nthCell ((List.range n).map f) i = f i := by
  intro n
  induction n with
  | zero => intro f i h; exact absurd h (Nat.not_lt_zero i)
  | succ m ih =>
    intro f i h
    rw [List.range_succ_eq_map, List.map_cons, List.map_map]
    cases i with
    | zero => rfl
    | succ j =>
      show nthCell ((List.range m).map (f ∘ Nat.succ)) j = f (j + 1)
      rw [ih (f ∘ Nat.succ) j (by omega)]
      rfl

theorem cellAt_eq (count i : Nat) (h : i < count) :
    cellAt count i = ⟨i / 65, i % 5, (i / 5) % 13⟩ := by
  rw [cellAt, (generate_labels_spec count).2, nthCell_map_range count _ i h]

/-- Claim C2: with the configured 5-column by 13-row grid, 65 labels fill
exactly one page and 66 labels fill two pages with the 66th label at the first
cell (column 0, row 0) of page 2; in general label `i` lands on page `i / 65`,
so a page break happens exactly before each label whose zero-based index is a
positive multiple of 65. -/
theorem label_pagination :
    numPages 65 = 1 ∧ numPages 66 = 2 ∧
    cellAt 66 65 = ⟨1, 0, 0⟩ ∧
    (∀ count i, i < count → (cellAt count i).page = i / 65) ∧
    (∀ count i, i < count → cellAt count i = ⟨i / 65, i % 5, (i / 5) % 13⟩) ∧
    (∀ count i, i + 1 < count →
      ((cellAt count (i + 1)).page = (cellAt count i).page + 1 ↔
        0 < i + 1 ∧ (i + 1) % 65 = 0)) := by
  have hcell : ∀ count i, i < count → cellAt count i = ⟨i / 65, i % 5, (i / 5) % 13⟩ :=
    cellAt_eq
  refine ⟨?_, ?_, ?_, ?_, hcell, ?_⟩
  · rw [numPages, (generate_labels_spec 65).1]
  · rw [numPages, (generate_labels_spec 66).1]
  · rw [hcell 66 65 (by omega)]
  · intro count i h
    rw [hcell count i h]
  · intro count i h
    rw [hcell count (i + 1) h, hcell count i (by omega)]
    show (i + 1) / 65 = i / 65 + 1 ↔ 0 < i + 1 ∧ (i + 1) % 65 = 0
    omega

theorem label_pagination_witness :
    (cellAt 66 65).page = 65 / 65 :=
  label_pagination.2.2.2.1 66 65 (by omega)

theorem filter_id_eq_nil (l : List Roll) (v : Int) (h : ∀ x ∈ l, x.id ≠ v) :
    l.filter (fun r => r.id == v) = [] := by
  induction l with
  | nil => rfl
  | cons a tl ih =>
    have ha : (a.id == v) = false := by
      have := h a (by simp)
      simpa using this
    have htl : ∀ x ∈ tl, x.id ≠ v := fun x hx => h x (by simp [hx])
    simp [List.filter_cons, ha, ih htl]

theorem filter_id_length_le_one (l : List Roll) (v : Int)
    (h : (l.map (fun r => r.id)).Nodup) :
    (l.filter (fun r => r.id == v)).length ≤ 1 := by
  induction l with
  | nil => simp
  | cons a tl ih =>
    rw [List.map_cons, List.nodup_cons] at h
    obtain ⟨hnotin, hnd⟩ := h
    by_cases ha : (a.id == v) = true
    · have hav : a.id = v := by simpa using ha
      have hnil : tl.filter (fun r => r.id == v) = [] := by
        apply filter_id_eq_nil
        intro x hx heq
        have hmem : x.id ∈ tl.map (fun r => r.id) := List.mem_map_of_mem _ hx
        rw [heq, ← hav] at hmem
        exact hnotin hmem
      simp [List.filter_cons, ha, hnil]
    · have ha' : (a.id == v) = false := by simpa using ha
      simp [List.filter_cons, ha', ih hnd]

def rollHP5 : Roll :=
  { id := 1, film_type := "HP5", iso := none, camera := "Nikon", lens := none,
    date_started := none, date_finished := none, contact_sheet := none, notes := "" }

def rollAxb : Roll :=
  { id := 2, film_type := "axb", iso := none, camera := "Nikon", lens := none,
    date_started := none, date_finished := none, contact_sheet := none, notes := "" }

/-- Claim C7 counterexample: the non-numeric result set is not the set of rolls
containing the query as a literal substring. The query `"hp5"` returns the roll
whose film type is `"HP5"` (SQLite `LIKE` folds ASCII case), and the query
`"a_b"` returns the roll whose film type is `"axb"` (`_` is a single-character
wildcard), although neither roll contains its query as a substring. -/
theorem search_like_cex :
    index [rollHP5] "hp5" = [rollHP5] ∧
    (pyContains rollHP5.film_type "hp5" || pyContains rollHP5.camera "hp5") = false ∧
    index [rollAxb] "a_b" = [rollAxb] ∧
    (pyContains rollAxb.film_type "a_b" || pyContains rollAxb.camera "a_b") = false := by
  decide

/-- Claim C7 (amended): a non-empty all-digit query returns at most one roll,
namely the one whose id equals the query's integer value when it exists; any
other non-empty query returns exactly the rolls whose film type or camera name
matches the SQL pattern `%query%` under SQLite `LIKE` semantics — ASCII
case-insensitive containment, with `%` and `_` in the query acting as
wildcards — rather than literal substring containment. -/
theorem search_semantics (rolls : List Roll) (q : String)
    (hnd : (rolls.map (fun r => r.id)).Nodup) (hq : q ≠ "") :
    (pyIsdigit q = true →
      (index rolls q).length ≤ 1 ∧
      ∀ r, r ∈ index rolls q ↔
        r ∈ rolls ∧ r.id = Int.ofNat (digitsVal q.data)) ∧
    (pyIsdigit q = false →
      ∀ r, r ∈ index rolls q ↔
        r ∈ rolls ∧ (sqlContains r.film_type q || sqlContains r.camera q) = true) := by
  have hne : ¬((q == "") = true) := by simpa using hq
  constructor
  · intro hdig
    have hidx : index rolls q
        = rolls.filter (fun r => r.id == Int.ofNat (digitsVal q.data)) := by
      rw [index, if_neg hne, if_pos hdig]
    constructor
    · rw [hidx]
      exact filter_id_length_le_one rolls _ hnd
    · intro r
      rw [hidx, List.mem_filter]
      simp
  · intro hdig
    have hdig' : ¬(pyIsdigit q = true) := by simp [hdig]
    have hidx : index rolls q
        = rolls.filter (fun r => sqlContains r.film_type q || sqlContains r.camera q) := by
      rw [index, if_neg hne, if_neg hdig']
    intro r
    rw [hidx, List.mem_filter]

theorem search_semantics_witness :
    (index [rollW7] "7").length ≤ 1 :=
  ((search_semantics [rollW7] "7" (by decide) (by decide)).1 (by decide)).1

theorem add_roll_preserves_nodup (st : FilmState) (f : AddForm) (g : String)
    (h : (st.rolls.map (fun r => r.id)).Nodup) :
    ((add_roll st f g).2.rolls.map (fun r => r.id)).Nodup := by
  by_cases hc : st.rolls.any (fun r => r.id == customIdOf st f) = true
  · simp only [add_roll, if_pos hc]
    exact h
  · cases hiso : pyOptInt f.iso with
    | error e =>
      simp only [add_roll, if_neg hc, hiso]
      exact h
    | ok iso =>
      simp only [add_roll, if_neg hc, hiso]
      rw [List.map_append, List.nodup_append]
      refine ⟨h, by simp, ?_⟩
      intro x hx hx2
      have hx2' : x = customIdOf st f := by simpa using hx2
      subst hx2'
      rw [List.mem_map] at hx
      obtain ⟨r, hr, hrid⟩ := hx
      apply hc
      rw [List.any_eq_true]
      exact ⟨r, hr, by simp [hrid]⟩

theorem delete_roll_preserves_nodup (st : FilmState) (rid : Int)
    (h : (st.rolls.map (fun r => r.id)).Nodup) :
    ((delete_roll st rid).2.rolls.map (fun r => r.id)).Nodup := by
  cases hf : findRoll st.rolls rid with
  | none =>
    simp only [delete_roll, hf]
    exact h
  | some roll =>
    cases hcs : roll.contact_sheet with
    | none =>
      simp only [delete_roll, hf, hcs]
      exact List.Nodup.sublist ((List.filter_sublist _).map _) h
    | some fn =>
      simp only [delete_roll, hf, hcs]
      exact List.Nodup.sublist ((List.filter_sublist _).map _) h

/-- Claim C3 counterexample: starting from an empty database, two auto-id
creates produce rolls 1 and 2; after deleting roll 2, a further create reuses
id 2, both with the auto-computed next id and with a user-supplied id. -/
theorem roll_id_reuse_cex :
    hasRollId (runOps emptyState [Op.addR baseForm "a", Op.addR baseForm "b"]) 2 = true ∧
    hasRollId (runOps emptyState
      [Op.addR baseForm "a", Op.addR baseForm "b", Op.delR 2]) 2 = false ∧
    hasRollId (runOps emptyState
      [Op.addR baseForm "a", Op.addR baseForm "b", Op.delR 2, Op.addR baseForm "c"]) 2
      = true ∧
    hasRollId (runOps emptyState
      [Op.addR baseForm "a", Op.addR baseForm "b", Op.delR 2,
        Op.addR { baseForm with roll_id := some "2" } "c"]) 2 = true := by
  decide

/-- Claim C3 (amended): a deleted roll's id can be assigned again to a
later-created roll (the auto-computed next id is one more than the current
maximum, and create accepts any user-supplied id not currently present); the
guarantee that does hold is that the ids in the Roll table stay pairwise
distinct across every sequence of create and delete operations. -/
theorem run_ops_roll_ids_nodup (ops : List Op) :
    ((runOps emptyState ops).rolls.map (fun r => r.id)).Nodup := by
  suffices h : ∀ (st : FilmState), (st.rolls.map (fun r => r.id)).Nodup →
      ((runOps st ops).rolls.map (fun r => r.id)).Nodup by
    exact h emptyState (by simp [emptyState])
  induction ops with
  | nil =>
    intro st h
    exact h
  | cons op tl ih =>
    intro st h
    show ((runOps (runOp st op) tl).rolls.map (fun r => r.id)).Nodup
    apply ih
    cases op with
    | addR f g => exact add_roll_preserves_nodup st f g h
    | delR rid => exact delete_roll_preserves_nodup st rid h

/-- Claim C4 counterexample: on the malformed date string `"15/01/2023"`,
`add_roll` does not re-render the form with a message: it redirects and
silently persists a roll whose start date is null; and `edit_roll` does not
catch the error at all: it raises, leaving the state unchanged. -/
theorem bad_date_cex :
    strptimeYmd "15/01/2023" = none ∧
    (add_roll emptyState badDateAddForm "g").1 = ReqResult.redirect ∧
    (add_roll emptyState badDateAddForm "g").2.rolls
      = [{ id := 1, film_type := "Portra 400", iso := none, camera := "AE-1", lens := none,
           date_started := none, date_finished := none, contact_sheet := none,
           notes := "" }] ∧
    edit_roll stateW7 7 badDateEditForm "g" = (ReqResult.raised, stateW7) := by
  decide

/-- Claim C4 (amended): for a non-empty string not in YYYY-MM-DD format in the
`date_started` or the `date_finished` field, `add_roll` catches the error but
silently persists null for each such date field while redirecting as on
success (no message is shown), and `edit_roll` does not catch it: the request
raises an unhandled exception and persists nothing. -/
theorem bad_date_behavior (s : String) (hmal : strptimeYmd s = none) (hne : s ≠ "") :
    (∀ (st : FilmState) (f : AddForm) (g : String) (iso : Option Int),
      (f.date_started = some s ∨ f.date_finished = some s) →
      st.rolls.any (fun r => r.id == customIdOf st f) = false →
      pyOptInt f.iso = Except.ok iso →
      (add_roll st f g).1 = ReqResult.redirect ∧
      ∃ r, (add_roll st f g).2.rolls = st.rolls ++ [r] ∧
        (f.date_started = some s → r.date_started = none) ∧
        (f.date_finished = some s → r.date_finished = none)) ∧
    (∀ (st : FilmState) (rid : Int) (f : EditForm) (g : String) (roll : Roll)
        (iso : Option Int),
      findRoll st.rolls rid = some roll →
      pyOptInt f.iso = Except.ok iso →
      (f.date_started = some s ∨ f.date_finished = some s) →
      edit_roll st rid f g = (ReqResult.raised, st)) := by
  have hs : (s == "") = false := by simpa using hne
  constructor
  · intro st f g iso hdates hfree hiso
    have hfree' : ¬(st.rolls.any (fun r => r.id == customIdOf st f) = true) := by
      simp [hfree]
    constructor
    · simp only [add_roll]
      rw [if_neg hfree', hiso]
    · simp only [add_roll]
      rw [if_neg hfree', hiso]
      refine ⟨_, rfl, ?_, ?_⟩
      · intro hds
        show parse_date f.date_started = none
        rw [hds, parse_date, if_neg (by simp [hne]), hmal]
      · intro hdf
        show parse_date f.date_finished = none
        rw [hdf, parse_date, if_neg (by simp [hne]), hmal]
  · intro st rid f g roll iso hfound hiso hdates
    have herr : parse_date_edit (some s) = Except.error () := by
      rw [parse_date_edit, if_neg (by simp [hne]), hmal]
    cases hds : parse_date_edit f.date_started with
    | error e =>
      simp only [edit_roll, hfound, hiso, hds]
    | ok ds =>
      rcases hdates with h | h
      · rw [h, herr] at hds
        exact absurd hds (by simp)
      · have hdf : parse_date_edit f.date_finished = Except.error () := by
          rw [h, herr]
        simp only [edit_roll, hfound, hiso, hds, hdf]

def badDateFinAddForm : AddForm := { baseForm with date_finished := some "15/01/2023" }

def badDateFinEditForm : EditForm :=
  { film_type := "X", camera := "C", lens := none, notes := "", iso := none,
    date_started := none, date_finished := some "15/01/2023", contact_sheet := none }

theorem bad_date_behavior_witness :
    ((add_roll emptyState badDateFinAddForm "g").1 = ReqResult.redirect ∧
      ∃ r, (add_roll emptyState badDateFinAddForm "g").2.rolls = emptyState.rolls ++ [r] ∧
        (badDateFinAddForm.date_started = some "15/01/2023" → r.date_started = none) ∧
        (badDateFinAddForm.date_finished = some "15/01/2023" → r.date_finished = none)) ∧
    edit_roll stateW7 7 badDateFinEditForm "g" = (ReqResult.raised, stateW7) :=
  ⟨(bad_date_behavior "15/01/2023" (by decide) (by decide)).1 emptyState badDateFinAddForm
      "g" none (Or.inr rfl) (by decide) rfl,
   (bad_date_behavior "15/01/2023" (by decide) (by decide)).2 stateW7 7 badDateFinEditForm
      "g" rollW7 none (by decide) rfl (Or.inr rfl)⟩

/-- Claim C8: on a successful edit, the request redirects, no file is ever
removed from the image directory (the replaced image file stays), exactly the
roll with the edited id is rewritten, its editable fields are overwritten from
the form, and its contact sheet is replaced exactly when a new valid upload is
supplied, keeping its old value otherwise. -/
theorem edit_roll_update_semantics (st : FilmState) (rid : Int) (f : EditForm)
    (g : String) (roll : Roll) (iso : Option Int) (ds df : Option PyDate)
    (hfound : findRoll st.rolls rid = some roll)
    (hiso : pyOptInt f.iso = Except.ok iso)
    (hds : parse_date_edit f.date_started = Except.ok ds)
    (hdf : parse_date_edit f.date_finished = Except.ok df) :
    (edit_roll st rid f g).1 = ReqResult.redirect ∧
    (∀ x, x ∈ st.images → x ∈ (edit_roll st rid f g).2.images) ∧
    ∃ r', (edit_roll st rid f g).2.rolls
        = st.rolls.map (fun r => if r.id == rid then r' else r) ∧
      r'.film_type = f.film_type ∧ r'.camera = f.camera ∧ r'.lens = f.lens ∧
      r'.notes = f.notes ∧ r'.iso = iso ∧ r'.date_started = ds ∧ r'.date_finished = df ∧
      (validUpload f.contact_sheet = true → r'.contact_sheet = some g) ∧
      (validUpload f.contact_sheet = false → r'.contact_sheet = roll.contact_sheet) := by
  refine ⟨?_, ?_, ?_⟩
  · simp only [edit_roll]
    rw [hfound, hiso, hds, hdf]
  · intro x hx
    simp only [edit_roll]
    rw [hfound, hiso, hds, hdf]
    show x ∈ (if validUpload f.contact_sheet = true then st.images ++ [g] else st.images)
    by_cases hv : validUpload f.contact_sheet = true
    · simp [hv, hx]
    · have hv' : validUpload f.contact_sheet = false := by simpa using hv
      simp [hv', hx]
  · simp only [edit_roll]
    rw [hfound, hiso, hds, hdf]
    refine ⟨_, rfl, rfl, rfl, rfl, rfl, rfl, rfl, rfl, ?_, ?_⟩
    · intro hv
      show (if validUpload f.contact_sheet = true then some g else roll.contact_sheet)
          = some g
      simp [hv]
    · intro hv
      show (if validUpload f.contact_sheet = true then some g else roll.contact_sheet)
          = roll.contact_sheet
      simp [hv]

theorem edit_roll_update_semantics_witness :
    (edit_roll stateW7 7 editFormW "gen").1 = ReqResult.redirect :=
  (edit_roll_update_semantics stateW7 7 editFormW "gen" rollW7 (some 400)
    (some ⟨2024, 1, 2⟩) none (by decide) rfl rfl rfl).1

/-- Claim C10: a create with a free id whose uploaded filename has no dot, or a
final extension outside jpg/jpeg/png (case-insensitive), still succeeds: the
upload is silently dropped, no image file is written, and the roll is stored
with a null contact sheet. -/
theorem add_roll_bad_extension_dropped (st : FilmState) (f : AddForm)
    (g fname : String) (iso : Option Int)
    (hup : f.contact_sheet = some fname)
    (hbad : fname.data.contains '.' = false ∨
      ALLOWED_EXTENSIONS.contains ⟨lowerChars (afterLastDot fname.data)⟩ = false)
    (hfree : st.rolls.any (fun r => r.id == customIdOf st f) = false)
    (hiso : pyOptInt f.iso = Except.ok iso) :
    (add_roll st f g).1 = ReqResult.redirect ∧
    (add_roll st f g).2.images = st.images ∧
    ∃ r, (add_roll st f g).2.rolls = st.rolls ++ [r] ∧ r.contact_sheet = none ∧
      r.id = customIdOf st f := by
  have hall : allowed_file fname = false := by
    unfold allowed_file
    rcases hbad with h | h
    · rw [h, Bool.false_and]
    · rw [h, Bool.and_false]
  have hvu : validUpload f.contact_sheet = false := by
    rw [hup]
    simp [validUpload, hall]
  have hfree' : ¬(st.rolls.any (fun r => r.id == customIdOf st f) = true) := by
    simp [hfree]
  refine ⟨?_, ?_, ?_⟩
  · simp only [add_roll]
    rw [if_neg hfree', hiso]
  · simp only [add_roll]
    rw [if_neg hfree', hiso]
    show (if validUpload f.contact_sheet = true then st.images ++ [g] else st.images)
        = st.images
    simp [hvu]
  · simp only [add_roll]
    rw [if_neg hfree', hiso]
    refine ⟨_, rfl, ?_, rfl⟩
    show (if validUpload f.contact_sheet = true then some g else none) = none
    simp [hvu]

theorem add_roll_bad_extension_dropped_witness :
    (add_roll emptyState badExtForm "gen2").1 = ReqResult.redirect :=
  (add_roll_bad_extension_dropped emptyState badExtForm "gen2" "cs.gif" none rfl
    (Or.inr (by decide)) (by decide) rfl).1

end Filmlog
